import Mathlib

/-!
Verification of the trest Redis cache backend
(src/trest/cache/backends/rediscache.py).

The remote Redis store is modelled as an association list from encoded key
strings to a wire value together with an optional remaining TTL in seconds.
Wire values are either raw integer scalars (how redis stores a plain integer
sent by the client) or opaque pickled blobs; the pickle encoder is modelled
as the injective constructor `RVal.blob`, so decode of encode is identity,
which is the only property the code relies on.  TTL follows the redis-py
client generation the code was written against (its docstrings target Redis
2.0): `ttl` yields `none` when the key has no expiry, and the cache-level
`ttl` method turns a missing key into `0`.
-/

namespace Trest

/-- Python values that can be handed to the cache API.  `pyNone` is Python
None, `int` a non-boolean integer (Python bool is a subtype of int but the
code tests `isinstance(value, bool)` separately, so it is a distinct
constructor here), `str` text and `bytes` a byte string carrying its
content. -/
inductive PyVal where
  | pyNone : PyVal
  | int : Int → PyVal
  | bool : Bool → PyVal
  | str : String → PyVal
  | bytes : String → PyVal
  deriving DecidableEq, Repr

/-- The shape of the byte strings the backend ever stores in redis:
`rawInt n` stands for the decimal byte representation of the integer n
(what redis-py sends for a plain int value), `blob v` for the opaque
`pickle.dumps` bytes of the Python value v (nonempty and never a valid
decimal scalar, modelled as an injective constructor).  Reads hand these
bytes back to the backend as byte strings — never as Python ints — which
is why the decode path below is fallible. -/
inductive RVal where
  | rawInt : Int → RVal
  | blob : PyVal → RVal
  deriving DecidableEq, Repr

/-- The remote store: encoded key string, wire value, optional TTL in
seconds (`none` means the key has no expiry). -/
abbrev Store := List (String × RVal × Option Int)

/-- Cache keys as seen by the backend: either a raw application key or an
already-encoded one (`CacheKey`, the stub string class of the source, which
exists only to mark a key as already created). -/
inductive RKey where
  | raw : String → RKey
  | encoded : String → RKey
  deriving DecidableEq, Repr

/-- Per-client configuration (the `CacheClient` base state the backend
reads): key namespace, current key version and default timeout. -/
structure Config where
  ns : String
  version : Int
  default_timeout : Option Int
  deriving DecidableEq, Repr

/-- The timeout argument of `set`: the `DEFAULT_TIMEOUT` sentinel, Python
`None`, or an integer number of seconds. -/
inductive Timeout where
  | DEFAULT : Timeout
  | noExpiry : Timeout
  | val : Int → Timeout
  deriving DecidableEq, Repr

/-- Errors the backend raises that the claims mention: the `ValueError`
of `incr` and `incr_version` (the spec calls it `KeyNotFoundError`), the
`TypeError` Python would raise when the incr fallback adds a delta to a
non-numeric value, and the `UnpicklingError` raised by `pickle.loads` on
bytes that are not a valid pickle (for example the decimal byte string a
raw integer scalar comes back as). -/
inductive CacheErr where
  | keyNotFound : CacheErr
  | typeError : CacheErr
  | unpicklingError : CacheErr
  deriving DecidableEq, Repr

/-- Association-list lookup in the store. -/
def storeLookup : Store → String → Option (RVal × Option Int)
  | [], _ => none
  | (k, v, t) :: rest, key => if k = key then some (v, t) else storeLookup rest key

/-- Insert or overwrite a binding, keeping the position of an existing key
and appending a new one. -/
def storeInsert : Store → String → RVal → Option Int → Store
  | [], key, v, t => [(key, v, t)]
  | (k, v₀, t₀) :: rest, key, v, t =>
    if k = key then (key, v, t) :: rest
    else (k, v₀, t₀) :: storeInsert rest key v t

/-- Redis GET: the stored bytes, if any, described by their `RVal` shape.
redis-py returns them as a byte string, so even a stored raw integer
scalar reaches the caller as bytes, not as a Python int. -/
def clientGet (st : Store) (key : String) : Option RVal :=
  (storeLookup st key).map (fun p => p.1)

/-- Redis SET: stores the value and clears any existing expiry. -/
def clientSet (st : Store) (key : String) (v : RVal) : Store :=
  storeInsert st key v none

/-- Redis SETEX: stores the value with an expiry of t seconds. -/
def clientSetex (st : Store) (key : String) (t : Int) (v : RVal) : Store :=
  storeInsert st key v (some t)

/-- Redis SETNX: stores the value (with no expiry) only when the key is
absent; the boolean reports whether the write happened. -/
def clientSetnx (st : Store) (key : String) (v : RVal) : Bool × Store :=
  match storeLookup st key with
  | some _ => (false, st)
  | none => (true, storeInsert st key v none)

/-- Redis EXPIRE: sets the TTL of an existing key, no-op on a missing key.
The backend only issues it with a positive timeout, so the delete-on-
nonpositive behaviour of real redis is not modelled. -/
def clientExpire (st : Store) (key : String) (t : Int) : Store :=
  match storeLookup st key with
  | some (v, _) => storeInsert st key v (some t)
  | none => st

/-- Redis EXISTS. -/
def clientExists (st : Store) (key : String) : Bool :=
  (storeLookup st key).isSome

/-- Redis TTL through the redis-py generation the source targets: `none`
when the key has no expiry (and also when it is missing, which the backend
never relies on because it checks EXISTS first), otherwise the remaining
seconds. -/
def clientTtl (st : Store) (key : String) : Option Int :=
  match storeLookup st key with
  | some (_, t) => t
  | none => none

/-- Redis DEL of one key. -/
def clientDelete : Store → String → Store
  | [], _ => []
  | (k, v, t) :: rest, key =>
    if k = key then clientDelete rest key else (k, v, t) :: clientDelete rest key

/-- Redis INCRBY: succeeds on a raw integer scalar, preserving the key's
TTL; a missing key is created at the delta with no expiry; a pickled blob
is not an integer on the wire, so redis answers with a ResponseError. -/
def clientIncr (st : Store) (key : String) (delta : Int) : Except Unit (Int × Store) :=
  match storeLookup st key with
  | none => Except.ok (delta, storeInsert st key (RVal.rawInt delta) none)
  | some (RVal.rawInt n, t) => Except.ok (n + delta, storeInsert st key (RVal.rawInt (n + delta)) t)
  | some (RVal.blob _, _) => Except.error ()

/-- Redis MGET: like GET, every hit comes back as a byte string (its
`RVal` shape), never as a Python int. -/
def clientMget (st : Store) (keys : List String) : List (Option RVal) :=
  keys.map (clientGet st)

/-- Modelled from the spec: the Cache Client Base key-construction
algorithm of §4.3/§2 (namespace + version + raw key → final wire key); the
base class file is not among the sources, only its caller
`RedisClient.make_key` is. -/
def baseMakeKey (cfg : Config) (key : String) (version : Int) : String :=
  cfg.ns ++ ":" ++ toString version ++ ":" ++ key

/-- Embeds `RedisClient.make_key`: wrap the base-encoded key in a `CacheKey`
unless the argument already is one, in which case it is returned
unchanged. -/
def make_key (cfg : Config) (key : RKey) (version : Option Int) : RKey :=
  match key with
  | RKey.encoded s => RKey.encoded s
  | RKey.raw s => RKey.encoded (baseMakeKey cfg s (version.getD cfg.version))

/-- The string a `CacheKey` (or raw key) presents to the redis client. -/
def keyStr : RKey → String
  | RKey.raw s => s
  | RKey.encoded s => s

/-- Embeds `RedisCache.unpickle` applied to a value read from redis:
`if value and not isinstance(value, int) or isinstance(value, bool):
return pickle.loads(value)`.  Every read value is a nonempty byte string,
never a Python int, so the condition is true and `pickle.loads` runs on
all of them: pickled blobs decode to their value, while the decimal bytes
of a raw integer scalar are not a valid pickle and raise UnpicklingError
(the `isinstance(value, int)` pass-through branch is unreachable from the
read paths). -/
def unpickle : RVal → Except CacheErr PyVal
  | RVal.rawInt _ => Except.error CacheErr.unpicklingError
  | RVal.blob v => Except.ok v

/-- The value-encoding policy of `RedisCache.set`: `if not isinstance(value,
int) or isinstance(value, bool)` pickle the value, else send the raw int. -/
def wireOf : PyVal → RVal
  | PyVal.int n => RVal.rawInt n
  | v => RVal.blob v

/-- Timeout resolution in `RedisCache.set`: the `DEFAULT_TIMEOUT` sentinel
becomes the client's default timeout; `int(timeout)` on an integer model
value is the identity. -/
def resolveTimeout (cfg : Config) : Timeout → Option Int
  | Timeout.DEFAULT => cfg.default_timeout
  | Timeout.noExpiry => none
  | Timeout.val t => some t

/-- Embeds `RedisCache._set`: no timeout or a zero timeout stores without expiry
(SET, or SETNX when add-only); a positive timeout stores with expiry
(SETEX, or SETNX followed by a separate EXPIRE issued only when the
conditional write succeeded); a negative timeout stores nothing and
returns False. -/
def _set (st : Store) (key : String) (v : RVal) (timeout : Option Int)
    (addOnly : Bool) : Bool × Store :=
  match timeout with
  | none =>
    if addOnly then clientSetnx st key v else (true, clientSet st key v)
  | some t =>
    if t = 0 then
      if addOnly then clientSetnx st key v else (true, clientSet st key v)
    else if 0 < t then
      if addOnly then
        let r := clientSetnx st key v
        if r.1 then (true, clientExpire r.2 key t) else (false, r.2)
      else (true, clientSetex st key t v)
    else (false, st)

/-- Embeds `RedisCache.set`: encode the key, resolve the timeout, pickle the value
unless it is a non-boolean int, and delegate to `_set`. -/
def set (cfg : Config) (st : Store) (key : RKey) (value : PyVal)
    (timeout : Timeout) (version : Option Int) (addOnly : Bool) : Bool × Store :=
  _set st (keyStr (make_key cfg key version)) (wireOf value)
    (resolveTimeout cfg timeout) addOnly

/-- Embeds `RedisCache.add`: `set(key, value, timeout, _add_only=True)` — note the
source drops its own `version` argument, so the write always uses the
client's current version. -/
def add (cfg : Config) (st : Store) (key : RKey) (value : PyVal)
    (timeout : Timeout) (_version : Option Int) : Bool × Store :=
  set cfg st key value timeout none true

/-- Embeds `RedisCache.get`: encode the key, read, return the default on a
miss, otherwise unpickle — which propagates the UnpicklingError that a raw
integer scalar read provokes. -/
def get (cfg : Config) (st : Store) (key : RKey) (default : PyVal)
    (version : Option Int) : Except CacheErr PyVal :=
  match clientGet st (keyStr (make_key cfg key version)) with
  | none => Except.ok default
  | some v => unpickle v

/-- Embeds `RedisCache.delete`. -/
def delete (cfg : Config) (st : Store) (key : RKey) (version : Option Int) : Store :=
  clientDelete st (keyStr (make_key cfg key version))

/-- Embeds `RedisCache.ttl`: the client TTL when the key exists, otherwise 0. -/
def ttl (cfg : Config) (st : Store) (key : RKey) (version : Option Int) : Option Int :=
  let k := keyStr (make_key cfg key version)
  if clientExists st k then clientTtl st k else some 0

/-- Embeds `RedisCache.has_key`. -/
def has_key (cfg : Config) (st : Store) (key : RKey) (version : Option Int) : Bool :=
  clientExists st (keyStr (make_key cfg key version))

/-- Python addition of an int delta to an unpickled cache value, as the
`incr` fallback performs it: defined for ints and bools (bool is an int in
Python), a `TypeError` for everything else. -/
def pyAdd : PyVal → Int → Option Int
  | PyVal.int n, d => some (n + d)
  | PyVal.bool b, d => some ((if b then 1 else 0) + d)
  | _, _ => none

/-- Embeds `RedisCache.incr`: raise if the key does not exist, else try the atomic
INCRBY; if redis rejects the value as non-numeric, fall back to
`self.get(key) + delta` followed by `self.set(key, value)` — a set without
a timeout argument, hence with the DEFAULT sentinel. -/
def incr (cfg : Config) (st : Store) (key : RKey) (delta : Int)
    (version : Option Int) : Except CacheErr (Int × Store) :=
  let k := make_key cfg key version
  if clientExists st (keyStr k) then
    match clientIncr st (keyStr k) delta with
    | Except.ok r => Except.ok r
    | Except.error _ =>
      match get cfg st k PyVal.pyNone none with
      | Except.error e => Except.error e
      | Except.ok value =>
        match pyAdd value delta with
        | some n => Except.ok (n, (set cfg st k (PyVal.int n) Timeout.DEFAULT none false).2)
        | none => Except.error CacheErr.typeError
  else Except.error CacheErr.keyNotFound

/-- Embeds `RedisCache.incr_version`: read the value and client TTL under the old
version's key, raise when the read came back None, write the value under
the new version's key with the read TTL as the timeout, delete the old key
and return the new version. -/
def incr_version (cfg : Config) (st : Store) (key : RKey) (delta : Int)
    (version : Option Int) : Except CacheErr (Int × Store) :=
  let ver := version.getD cfg.version
  let old_key := make_key cfg key (some ver)
  match get cfg st old_key PyVal.pyNone (some ver) with
  | Except.error e => Except.error e
  | Except.ok value =>
    let t := clientTtl st (keyStr old_key)
    if value = PyVal.pyNone then Except.error CacheErr.keyNotFound
    else
      let new_key := make_key cfg key (some (ver + delta))
      let tmo := match t with
        | none => Timeout.noExpiry
        | some s => Timeout.val s
      let r := set cfg st new_key value tmo none false
      Except.ok (ver + delta, delete cfg r.2 old_key none)

/-- Modelled from the spec: the human-readable text coercion `safestr`
(§4.1 "safely coerces byte-string content to text"); `trest.utils.func` is
not among the sources. -/
def safestr : PyVal → PyVal
  | PyVal.bytes s => PyVal.str s
  | v => v

/-- Modelled from the spec: insertion into `SortedDict` of `trest.storage`
(not among the sources), the insertion-ordered mapping of §4.5: an existing
key keeps its position and gets the new value, a new key is appended. -/
def sdInsert : List (RKey × PyVal) → RKey → PyVal → List (RKey × PyVal)
  | [], key, v => [(key, v)]
  | (k, v₀) :: rest, key, v =>
    if k = key then (key, v) :: rest else (k, v₀) :: sdInsert rest key v

/-- Lookup in a Python dict built by iterating bindings in order: a later
binding for the same key overwrites an earlier one. -/
def lookupLast : List (String × RKey) → String → Option RKey
  | [], _ => none
  | (k, v) :: rest, key =>
    match lookupLast rest key with
    | some r => some r
    | none => if k = key then some v else none

/-- The per-value step of `RedisCache.get_many` after unpickling:
`if isinstance(value, bytes): value = safestr(value)`. -/
def gmCoerce (value : PyVal) : PyVal :=
  match value with
  | PyVal.bytes s => safestr (PyVal.bytes s)
  | w => w

/-- The loop of `RedisCache.get_many` over `zip(new_keys, results)`:
missing values are skipped, found values are unpickled (a raw integer
scalar read makes `pickle.loads` raise, aborting the whole call), byte
strings are coerced through `safestr` (`gmCoerce`), and the result is
recorded in the SortedDict under `map_keys[key]` (the raw input key; the
lookup cannot miss since every processed key came from `new_keys`). -/
def gmLoop (mk : List (String × RKey)) :
    List (String × Option RVal) → List (RKey × PyVal) →
      Except CacheErr (List (RKey × PyVal))
  | [], acc => Except.ok acc
  | (_, none) :: rest, acc => gmLoop mk rest acc
  | (k, some v) :: rest, acc =>
    match unpickle v with
    | Except.error e => Except.error e
    | Except.ok value =>
      match lookupLast mk k with
      | some rawk => gmLoop mk rest (sdInsert acc rawk (gmCoerce value))
      | none => gmLoop mk rest acc

/-- Embeds `RedisCache.get_many`: empty input short-circuits; otherwise encode all
keys, build `map_keys = dict(zip(new_keys, keys))`, MGET, and run the
recording loop starting from an empty SortedDict. -/
def get_many (cfg : Config) (st : Store) (keys : List RKey)
    (version : Option Int) : Except CacheErr (List (RKey × PyVal)) :=
  match keys with
  | [] => Except.ok []
  | _ =>
    let new_keys := keys.map (fun k => keyStr (make_key cfg k version))
    let map_keys := new_keys.zip keys
    let results := clientMget st new_keys
    gmLoop map_keys (new_keys.zip results) []

/-- True when an optional read value is not a raw integer scalar, i.e.
decoding it cannot hit the UnpicklingError path. -/
def optIsBlob : Option RVal → Bool
  | some (RVal.rawInt _) => false
  | _ => true

/-! Store lemmas shared by the claim proofs. -/

theorem storeLookup_insert_self (st : Store) (k : String) (v : RVal) (t : Option Int) :
    storeLookup (storeInsert st k v t) k = some (v, t) := by
  induction st with
  | nil => simp [storeInsert, storeLookup]
  | cons hd rest ih =>
    obtain ⟨k₀, v₀, t₀⟩ := hd
    by_cases h : k₀ = k
    · simp [storeInsert, h, storeLookup]
    · simp [storeInsert, h, storeLookup, ih]

theorem storeLookup_insert_other (st : Store) (k k' : String) (v : RVal)
    (t : Option Int) (hne : k' ≠ k) :
    storeLookup (storeInsert st k v t) k' = storeLookup st k' := by
  have hkk : ¬ k = k' := fun hh => hne hh.symm
  induction st with
  | nil => simp [storeInsert, storeLookup, hkk]
  | cons hd rest ih =>
    obtain ⟨k₀, v₀, t₀⟩ := hd
    by_cases h : k₀ = k
    · simp [storeInsert, h, storeLookup, hkk]
    · simp [storeInsert, h, storeLookup, ih]

theorem storeLookup_delete_self (st : Store) (k : String) :
    storeLookup (clientDelete st k) k = none := by
  induction st with
  | nil => simp [clientDelete, storeLookup]
  | cons hd rest ih =>
    obtain ⟨k₀, v₀, t₀⟩ := hd
    by_cases h : k₀ = k
    · simp [clientDelete, h, ih]
    · simp [clientDelete, h, storeLookup, ih]

theorem storeLookup_delete_other (st : Store) (k k' : String) (hne : k' ≠ k) :
    storeLookup (clientDelete st k) k' = storeLookup st k' := by
  have hkk : ¬ k = k' := fun hh => hne hh.symm
  induction st with
  | nil => simp [clientDelete]
  | cons hd rest ih =>
    obtain ⟨k₀, v₀, t₀⟩ := hd
    by_cases h : k₀ = k
    · simp [clientDelete, h, storeLookup, hkk, ih]
    · simp [clientDelete, h, storeLookup, ih]

theorem unpickle_wireOf (v : PyVal) (h : ∀ n, v ≠ PyVal.int n) :
    unpickle (wireOf v) = Except.ok v := by
  cases v <;> first | rfl | exact absurd rfl (h _)

/-- A concrete client configuration used by the witnesses. -/
def cfgW : Config := ⟨"ns", 1, some 300⟩

/-- C8: key encoding is idempotent — an already-encoded key passes through
`make_key` unchanged, so encoding twice equals encoding once and internal
methods never double-prefix an already-resolved key. -/
theorem make_key_idempotent (cfg : Config) (k : RKey) (v w : Option Int) :
    make_key cfg (make_key cfg k v) w = make_key cfg k v ∧
    (∀ s : String, make_key cfg (RKey.encoded s) w = RKey.encoded s) := by
  constructor
  · cases k <;> rfl
  · intro s; rfl

/-- C5: `set` resolves its timeout by mapping the DEFAULT sentinel to the
client's default timeout; None or 0 stores the value with no expiry and
reports success; a negative timeout stores nothing and returns False. -/
theorem set_timeout_resolution (cfg : Config) (st : Store) (s : String)
    (value : PyVal) (ver : Option Int) (t : Int) (ht : t < 0) :
    resolveTimeout cfg Timeout.DEFAULT = cfg.default_timeout ∧
    (set cfg st (RKey.raw s) value Timeout.noExpiry ver false).1 = true ∧
    storeLookup (set cfg st (RKey.raw s) value Timeout.noExpiry ver false).2
      (keyStr (make_key cfg (RKey.raw s) ver)) = some (wireOf value, none) ∧
    (set cfg st (RKey.raw s) value (Timeout.val 0) ver false).1 = true ∧
    storeLookup (set cfg st (RKey.raw s) value (Timeout.val 0) ver false).2
      (keyStr (make_key cfg (RKey.raw s) ver)) = some (wireOf value, none) ∧
    set cfg st (RKey.raw s) value (Timeout.val t) ver false = (false, st) := by
  have h0 : ¬ t = 0 := by omega
  have h1 : ¬ 0 < t := by omega
  refine ⟨rfl, rfl, ?_, rfl, ?_, ?_⟩
  · simp [set, _set, resolveTimeout, clientSet, storeLookup_insert_self]
  · simp [set, _set, resolveTimeout, clientSet, storeLookup_insert_self]
  · simp [set, _set, resolveTimeout, h0, h1]

/-- Witness for C5 at a concrete client, store, key and negative timeout. -/
theorem set_timeout_resolution_witness :
    (-3 : Int) < 0 ∧
    (resolveTimeout cfgW Timeout.DEFAULT = cfgW.default_timeout ∧
    (set cfgW [] (RKey.raw "k") (PyVal.str "v") Timeout.noExpiry none false).1 = true ∧
    storeLookup (set cfgW [] (RKey.raw "k") (PyVal.str "v") Timeout.noExpiry none false).2
      (keyStr (make_key cfgW (RKey.raw "k") none)) = some (wireOf (PyVal.str "v"), none) ∧
    (set cfgW [] (RKey.raw "k") (PyVal.str "v") (Timeout.val 0) none false).1 = true ∧
    storeLookup (set cfgW [] (RKey.raw "k") (PyVal.str "v") (Timeout.val 0) none false).2
      (keyStr (make_key cfgW (RKey.raw "k") none)) = some (wireOf (PyVal.str "v"), none) ∧
    set cfgW [] (RKey.raw "k") (PyVal.str "v") (Timeout.val (-3)) none false = (false, [])) :=
  ⟨by decide, set_timeout_resolution cfgW [] "k" (PyVal.str "v") none (-3) (by decide)⟩

/-- C4: `ttl` makes a three-way distinction — `some 0` when the key does
not exist, `none` (the no-expiry sentinel) when it exists without expiry,
and the remaining seconds (positive and at most the configured timeout)
right after a `set` with a positive timeout. -/
theorem ttl_three_way (cfg : Config) (st₁ st₂ st₃ : Store) (s : String)
    (ver : Option Int) (v : RVal) (value : PyVal) (tmo : Int)
    (h₁ : clientExists st₁ (keyStr (make_key cfg (RKey.raw s) ver)) = false)
    (h₂ : storeLookup st₂ (keyStr (make_key cfg (RKey.raw s) ver)) = some (v, none))
    (h₃ : 0 < tmo) :
    ttl cfg st₁ (RKey.raw s) ver = some 0 ∧
    ttl cfg st₂ (RKey.raw s) ver = none ∧
    (ttl cfg (set cfg st₃ (RKey.raw s) value (Timeout.val tmo) ver false).2
        (RKey.raw s) ver = some tmo ∧ 0 < tmo ∧ tmo ≤ tmo) := by
  have h0 : ¬ tmo = 0 := by omega
  refine ⟨?_, ?_, ?_, h₃, le_refl tmo⟩
  · simp [ttl, h₁]
  · simp [ttl, clientExists, clientTtl, h₂]
  · simp [ttl, set, _set, resolveTimeout, h0, h₃, clientSetex, clientExists,
      clientTtl, storeLookup_insert_self]

/-- Witness for C4 at a concrete client, three concrete stores and a
timeout of 10. -/
theorem ttl_three_way_witness :
    (clientExists [] (keyStr (make_key cfgW (RKey.raw "k") none)) = false ∧
     storeLookup [("ns:1:k", RVal.blob (PyVal.str "v"), (none : Option Int))]
       (keyStr (make_key cfgW (RKey.raw "k") none)) = some (RVal.blob (PyVal.str "v"), none) ∧
     (0 : Int) < 10) ∧
    (ttl cfgW [] (RKey.raw "k") none = some 0 ∧
     ttl cfgW [("ns:1:k", RVal.blob (PyVal.str "v"), (none : Option Int))] (RKey.raw "k") none = none ∧
     (ttl cfgW (set cfgW [] (RKey.raw "k") (PyVal.str "v") (Timeout.val 10) none false).2
        (RKey.raw "k") none = some 10 ∧ (0 : Int) < 10 ∧ (10 : Int) ≤ 10)) :=
  ⟨⟨by decide, by decide, by decide⟩,
    ttl_three_way cfgW [] [("ns:1:k", RVal.blob (PyVal.str "v"), none)] [] "k" none
      (RVal.blob (PyVal.str "v")) (PyVal.str "v") 10 (by decide) (by decide) (by decide)⟩

/-- C6: `add` returns True and stores the value when the key is absent and
returns False leaving the store unchanged when the key is present; with a
positive timeout the expiry is applied as a separate EXPIRE call issued
after the conditional SETNX succeeded. -/
theorem add_correct (cfg : Config) (st₁ st₂ : Store) (s : String) (value : PyVal)
    (ver : Option Int) (t : Int) (w : RVal) (tt : Option Int)
    (habs : storeLookup st₁ (keyStr (make_key cfg (RKey.raw s) none)) = none)
    (hpres : storeLookup st₂ (keyStr (make_key cfg (RKey.raw s) none)) = some (w, tt))
    (ht : 0 < t) :
    (add cfg st₁ (RKey.raw s) value (Timeout.val t) ver).1 = true ∧
    (add cfg st₁ (RKey.raw s) value (Timeout.val t) ver).2 =
      clientExpire (clientSetnx st₁ (keyStr (make_key cfg (RKey.raw s) none)) (wireOf value)).2
        (keyStr (make_key cfg (RKey.raw s) none)) t ∧
    storeLookup (add cfg st₁ (RKey.raw s) value (Timeout.val t) ver).2
      (keyStr (make_key cfg (RKey.raw s) none)) = some (wireOf value, some t) ∧
    add cfg st₂ (RKey.raw s) value (Timeout.val t) ver = (false, st₂) := by
  have h0 : ¬ t = 0 := by omega
  refine ⟨?_, ?_, ?_, ?_⟩
  · simp [add, set, _set, resolveTimeout, h0, ht, clientSetnx, habs]
  · simp [add, set, _set, resolveTimeout, h0, ht, clientSetnx, habs]
  · simp [add, set, _set, resolveTimeout, h0, ht, clientSetnx, habs, clientExpire,
      storeLookup_insert_self]
  · simp [add, set, _set, resolveTimeout, h0, ht, clientSetnx, hpres]

/-- Witness for C6 at a concrete client, an empty and a one-entry store. -/
theorem add_correct_witness :
    (storeLookup [] (keyStr (make_key cfgW (RKey.raw "k") none)) = none ∧
     storeLookup [("ns:1:k", RVal.rawInt 7, (none : Option Int))]
       (keyStr (make_key cfgW (RKey.raw "k") none)) = some (RVal.rawInt 7, none) ∧
     (0 : Int) < 10) ∧
    ((add cfgW [] (RKey.raw "k") (PyVal.str "v") (Timeout.val 10) none).1 = true ∧
     (add cfgW [] (RKey.raw "k") (PyVal.str "v") (Timeout.val 10) none).2 =
       clientExpire (clientSetnx [] (keyStr (make_key cfgW (RKey.raw "k") none))
           (wireOf (PyVal.str "v"))).2
         (keyStr (make_key cfgW (RKey.raw "k") none)) 10 ∧
     storeLookup (add cfgW [] (RKey.raw "k") (PyVal.str "v") (Timeout.val 10) none).2
       (keyStr (make_key cfgW (RKey.raw "k") none)) = some (wireOf (PyVal.str "v"), some 10) ∧
     add cfgW [("ns:1:k", RVal.rawInt 7, (none : Option Int))] (RKey.raw "k") (PyVal.str "v")
       (Timeout.val 10) none = (false, [("ns:1:k", RVal.rawInt 7, (none : Option Int))])) :=
  ⟨⟨by decide, by decide, by decide⟩,
    add_correct cfgW [] [("ns:1:k", RVal.rawInt 7, none)] "k" (PyVal.str "v") none 10
      (RVal.rawInt 7) none (by decide) (by decide) (by decide)⟩

/-- C1: the claim is the spec's intent and the code breaks it.  The write
half is true — `set(k, 5)` does store the raw scalar, not a pickle — but
the read half is not: redis returns the scalar as the byte string it is,
never as a Python int, so `unpickle`'s `isinstance(value, int)`
pass-through branch is unreachable and `pickle.loads` runs on the decimal
bytes, raising UnpicklingError instead of returning 5.  Evaluated here at
the failing input `set(k, 5)` followed by `get(k)`. -/
theorem set_get_int_bug :
    clientGet (set cfgW [] (RKey.raw "k") (PyVal.int 5) Timeout.DEFAULT none false).2
      (keyStr (make_key cfgW (RKey.raw "k") none)) = some (RVal.rawInt 5) ∧
    get cfgW (set cfgW [] (RKey.raw "k") (PyVal.int 5) Timeout.DEFAULT none false).2
      (RKey.raw "k") PyVal.pyNone none = Except.error CacheErr.unpicklingError :=
  ⟨rfl, rfl⟩

/-- Encoding a key twice equals encoding it once (shared helper). -/
theorem make_key_twice (cfg : Config) (k : RKey) (v w : Option Int) :
    make_key cfg (make_key cfg k v) w = make_key cfg k v := by
  cases k <;> rfl

/-- C3: two thirds of the claim hold and the last third is broken by the
same decode slip as C1.  A missing key raises the key-not-found
`ValueError`; after `set(k, 5)` the atomic INCRBY succeeds and `incr`
returns 6 (redis-py parses the integer reply, so this really is an int);
but the subsequent `get` finds the byte scalar b"6" and `pickle.loads`
raises UnpicklingError instead of returning 6, although `get`'s own
docstring promises the unpickled value.  Evaluated at the failing input
`set(k, 5); incr(k); get(k)`. -/
theorem incr_get_bug :
    incr cfgW [] (RKey.raw "k") 1 none = Except.error CacheErr.keyNotFound ∧
    (set cfgW [] (RKey.raw "k") (PyVal.int 5) Timeout.DEFAULT none false).2 =
      [("ns:1:k", RVal.rawInt 5, some 300)] ∧
    incr cfgW [("ns:1:k", RVal.rawInt 5, (some 300 : Option Int))] (RKey.raw "k") 1 none =
      Except.ok (6, [("ns:1:k", RVal.rawInt 6, some 300)]) ∧
    get cfgW [("ns:1:k", RVal.rawInt 6, (some 300 : Option Int))] (RKey.raw "k")
      PyVal.pyNone none = Except.error CacheErr.unpicklingError :=
  ⟨rfl, rfl, rfl, rfl⟩

/-- C10: when `incr` takes the non-atomic fallback (the stored value is a
blob redis rejects as non-numeric), the fallback `set` carries no timeout
argument, so the key ends up with the client's default timeout instead of
its previous remaining TTL. -/
theorem incr_fallback_resets_ttl (cfg : Config) (st : Store) (s : String)
    (delta n d t0 : Int) (ver : Option Int) (w : PyVal)
    (hlook : storeLookup st (keyStr (make_key cfg (RKey.raw s) ver)) =
      some (RVal.blob w, some t0))
    (hadd : pyAdd w delta = some n)
    (hd : cfg.default_timeout = some d) (hdpos : 0 < d) :
    ∃ st', incr cfg st (RKey.raw s) delta ver = Except.ok (n, st') ∧
      clientTtl st' (keyStr (make_key cfg (RKey.raw s) ver)) = some d ∧
      (t0 ≠ d → clientTtl st' (keyStr (make_key cfg (RKey.raw s) ver)) ≠ some t0) := by
  have hd0 : ¬ d = 0 := by omega
  refine ⟨storeInsert st (keyStr (make_key cfg (RKey.raw s) ver)) (RVal.rawInt n) (some d),
    ?_, ?_, ?_⟩
  · simp [incr, clientExists, hlook, clientIncr, get, make_key_twice, clientGet,
      unpickle, hadd, set, _set, resolveTimeout, hd, hd0, hdpos, clientSetex, wireOf]
  · simp [clientTtl, storeLookup_insert_self]
  · intro hne
    simp [clientTtl, storeLookup_insert_self]
    omega

/-- Witness for C10: a pickled boolean True with 42 seconds left ends up as
the raw integer 2 with the default 300-second expiry. -/
theorem incr_fallback_resets_ttl_witness :
    (storeLookup [("ns:1:k", RVal.blob (PyVal.bool true), (some 42 : Option Int))]
       (keyStr (make_key cfgW (RKey.raw "k") none)) = some (RVal.blob (PyVal.bool true), some 42) ∧
     pyAdd (PyVal.bool true) 1 = some 2 ∧
     cfgW.default_timeout = some 300 ∧ (0 : Int) < 300) ∧
    (∃ st', incr cfgW [("ns:1:k", RVal.blob (PyVal.bool true), (some 42 : Option Int))]
        (RKey.raw "k") 1 none = Except.ok (2, st') ∧
      clientTtl st' (keyStr (make_key cfgW (RKey.raw "k") none)) = some 300 ∧
      ((42 : Int) ≠ 300 → clientTtl st' (keyStr (make_key cfgW (RKey.raw "k") none)) ≠ some 42)) :=
  ⟨⟨by decide, by decide, rfl, by decide⟩,
    incr_fallback_resets_ttl cfgW [("ns:1:k", RVal.blob (PyVal.bool true), some 42)] "k"
      1 2 300 42 none (PyVal.bool true) (by decide) (by decide) rfl (by decide)⟩

/-- C2 counterexample, refuting the claim for three kinds of present keys:
a key holding the pickled Python None makes `incr_version` raise
key-not-found (the read of the old key cannot tell a stored None from a
miss); a key holding a raw integer scalar makes it raise UnpicklingError
(the C1 decode slip) instead of migrating; and with delta = 0 the new key
equals the old key, so the delete undoes the write and the value is lost
entirely instead of being stored under version + delta. -/
theorem incr_version_counterexample :
    (clientExists [("ns:1:k", RVal.blob PyVal.pyNone, (none : Option Int))]
      (keyStr (make_key cfgW (RKey.raw "k") (some 1))) = true ∧
    incr_version cfgW [("ns:1:k", RVal.blob PyVal.pyNone, (none : Option Int))]
      (RKey.raw "k") 1 (some 1) = Except.error CacheErr.keyNotFound) ∧
    (clientExists [("ns:1:k", RVal.rawInt 5, (none : Option Int))]
      (keyStr (make_key cfgW (RKey.raw "k") (some 1))) = true ∧
    incr_version cfgW [("ns:1:k", RVal.rawInt 5, (none : Option Int))]
      (RKey.raw "k") 1 (some 1) = Except.error CacheErr.unpicklingError) ∧
    incr_version cfgW [("ns:1:k", RVal.blob (PyVal.str "x"), (none : Option Int))]
      (RKey.raw "k") 0 (some 1) = Except.ok (1, []) := by
  exact ⟨⟨by decide, rfl⟩, ⟨by decide, rfl⟩, rfl⟩

/-- C2 (amended): for a key present in the store holding a pickled value
that does not decode to None, with delta making the new encoded key differ
from the old one, `incr_version` stores the value under version + delta
with the same remaining TTL (on the wire: the re-pickled value), deletes
the old key and returns version + delta; when the old key is absent it
fails with the key-not-found error.  The value restriction and the delta
restriction are each forced by a case of the exhibited counterexample.
The TTL hypothesis is store well-formedness, not a further amendment: the
redis-py TTL read this code targets yields None or a positive count for an
existing key, never zero or a negative number. -/
theorem incr_version_correct (cfg : Config) (st st₂ : Store) (s : String)
    (delta : Int) (ver : Int) (w : PyVal) (t0 : Option Int)
    (hlook : storeLookup st (keyStr (make_key cfg (RKey.raw s) (some ver))) =
      some (RVal.blob w, t0))
    (hnn : w ≠ PyVal.pyNone)
    (ht0 : t0 = none ∨ ∃ t, t0 = some t ∧ 0 < t)
    (hk : keyStr (make_key cfg (RKey.raw s) (some (ver + delta))) ≠
      keyStr (make_key cfg (RKey.raw s) (some ver)))
    (habs : storeLookup st₂ (keyStr (make_key cfg (RKey.raw s) (some ver))) = none) :
    (∃ st', incr_version cfg st (RKey.raw s) delta (some ver) =
        Except.ok (ver + delta, st') ∧
      storeLookup st' (keyStr (make_key cfg (RKey.raw s) (some (ver + delta)))) =
        some (wireOf w, t0) ∧
      ((∀ n, w ≠ PyVal.int n) →
        get cfg st' (RKey.raw s) PyVal.pyNone (some (ver + delta)) = Except.ok w) ∧
      clientTtl st' (keyStr (make_key cfg (RKey.raw s) (some (ver + delta)))) = t0 ∧
      clientExists st' (keyStr (make_key cfg (RKey.raw s) (some ver))) = false) ∧
    incr_version cfg st₂ (RKey.raw s) delta (some ver) = Except.error CacheErr.keyNotFound := by
  constructor
  · refine ⟨clientDelete (storeInsert st
        (keyStr (make_key cfg (RKey.raw s) (some (ver + delta))))
        (wireOf w) t0) (keyStr (make_key cfg (RKey.raw s) (some ver))),
      ?_, ?_, ?_, ?_, ?_⟩
    · rcases ht0 with rfl | ⟨t, rfl, htpos⟩
      · simp [incr_version, get, make_key_twice, clientGet, hlook, hnn, clientTtl,
          set, _set, resolveTimeout, clientSet, delete, unpickle]
      · have ht0' : ¬ t = 0 := by omega
        simp [incr_version, get, make_key_twice, clientGet, hlook, hnn, clientTtl,
          set, _set, resolveTimeout, clientSetex, delete, ht0', htpos, unpickle]
    · simp [storeLookup_delete_other _ _ _ hk, storeLookup_insert_self]
    · intro hni
      simp [get, make_key_twice, clientGet, storeLookup_delete_other _ _ _ hk,
        storeLookup_insert_self, unpickle_wireOf w hni]
    · simp [clientTtl, storeLookup_delete_other _ _ _ hk, storeLookup_insert_self]
    · simp [clientExists, storeLookup_delete_self]
  · simp [incr_version, get, make_key_twice, clientGet, habs]

/-- Witness for C2 at a concrete client and a key holding the pickled
string x with 5 seconds to live under version 1. -/
theorem incr_version_correct_witness :
    (storeLookup [("ns:1:k", RVal.blob (PyVal.str "x"), (some 5 : Option Int))]
       (keyStr (make_key cfgW (RKey.raw "k") (some 1))) = some (RVal.blob (PyVal.str "x"), some 5) ∧
     PyVal.str "x" ≠ PyVal.pyNone ∧
     keyStr (make_key cfgW (RKey.raw "k") (some (1 + 1))) ≠
       keyStr (make_key cfgW (RKey.raw "k") (some 1)) ∧
     storeLookup ([] : Store) (keyStr (make_key cfgW (RKey.raw "k") (some 1))) = none) ∧
    ((∃ st', incr_version cfgW [("ns:1:k", RVal.blob (PyVal.str "x"), (some 5 : Option Int))]
        (RKey.raw "k") 1 (some 1) = Except.ok (1 + 1, st') ∧
      storeLookup st' (keyStr (make_key cfgW (RKey.raw "k") (some (1 + 1)))) =
        some (wireOf (PyVal.str "x"), some 5) ∧
      ((∀ n, PyVal.str "x" ≠ PyVal.int n) →
        get cfgW st' (RKey.raw "k") PyVal.pyNone (some (1 + 1)) = Except.ok (PyVal.str "x")) ∧
      clientTtl st' (keyStr (make_key cfgW (RKey.raw "k") (some (1 + 1)))) = some 5 ∧
      clientExists st' (keyStr (make_key cfgW (RKey.raw "k") (some 1))) = false) ∧
    incr_version cfgW [] (RKey.raw "k") 1 (some 1) = Except.error CacheErr.keyNotFound) :=
  ⟨⟨by decide, by decide, by decide, by decide⟩,
    incr_version_correct cfgW [("ns:1:k", RVal.blob (PyVal.str "x"), some 5)] [] "k" 1 1
      (PyVal.str "x") (some 5) (by decide) (by decide)
      (Or.inr ⟨5, rfl, by decide⟩) (by decide) (by decide)⟩

/-- C9: when the stored value decodes to a byte string, `get` returns the
byte string as-is while `get_many` coerces it to text, so the two return
different results for the same entry. -/
theorem get_vs_get_many_bytes (cfg : Config) (st : Store) (s b : String)
    (ver : Option Int) (t0 : Option Int)
    (h : storeLookup st (keyStr (make_key cfg (RKey.raw s) ver)) =
      some (RVal.blob (PyVal.bytes b), t0)) :
    get cfg st (RKey.raw s) PyVal.pyNone ver = Except.ok (PyVal.bytes b) ∧
    get_many cfg st [RKey.raw s] ver = Except.ok [(RKey.raw s, PyVal.str b)] ∧
    PyVal.bytes b ≠ PyVal.str b := by
  refine ⟨?_, ?_, ?_⟩
  · simp [get, clientGet, h, unpickle]
  · simp [get_many, clientMget, clientGet, h, gmLoop, gmCoerce, unpickle, safestr,
      lookupLast, sdInsert]
  · exact fun hh => PyVal.noConfusion hh

/-- Witness for C9 at a concrete store holding a pickled byte string. -/
theorem get_vs_get_many_bytes_witness :
    storeLookup [("ns:1:k", RVal.blob (PyVal.bytes "hi"), (none : Option Int))]
      (keyStr (make_key cfgW (RKey.raw "k") none)) = some (RVal.blob (PyVal.bytes "hi"), none) ∧
    (get cfgW [("ns:1:k", RVal.blob (PyVal.bytes "hi"), (none : Option Int))]
        (RKey.raw "k") PyVal.pyNone none = Except.ok (PyVal.bytes "hi") ∧
     get_many cfgW [("ns:1:k", RVal.blob (PyVal.bytes "hi"), (none : Option Int))]
        [RKey.raw "k"] none = Except.ok [(RKey.raw "k", PyVal.str "hi")] ∧
     PyVal.bytes "hi" ≠ PyVal.str "hi") :=
  ⟨by decide,
    get_vs_get_many_bytes cfgW [("ns:1:k", RVal.blob (PyVal.bytes "hi"), none)] "k" "hi"
      none none (by decide)⟩

/-! Lemmas about the get_many loop, leading to C7. -/

theorem sdInsert_append (acc : List (RKey × PyVal)) (k : RKey) (v : PyVal)
    (h : k ∉ acc.map Prod.fst) :
    sdInsert acc k v = acc ++ [(k, v)] := by
  induction acc with
  | nil => rfl
  | cons hd rest ih =>
    obtain ⟨k₀, v₀⟩ := hd
    simp only [List.map_cons, List.mem_cons, not_or] at h
    have hne : ¬ k₀ = k := fun hh => h.1 hh.symm
    simp [sdInsert, hne, ih h.2]

theorem lookupLast_eq_none (mk : List (String × RKey)) (x : String)
    (h : ∀ p ∈ mk, p.1 ≠ x) : lookupLast mk x = none := by
  induction mk with
  | nil => rfl
  | cons hd rest ih =>
    obtain ⟨k₀, v₀⟩ := hd
    have h0 : k₀ ≠ x := h (k₀, v₀) (by simp)
    simp [lookupLast, ih (fun p hp => h p (by simp [hp])), h0]

theorem lookupLast_self (g : RKey → String) (keys : List RKey)
    (hnd : (keys.map g).Nodup) :
    ∀ k ∈ keys, lookupLast (keys.map fun x => (g x, x)) (g k) = some k := by
  induction keys with
  | nil => intro k hk; simp at hk
  | cons k₀ rest ih =>
    simp only [List.map_cons, List.nodup_cons] at hnd
    intro k hk
    rcases List.mem_cons.mp hk with rfl | hk'
    · have hnone : lookupLast (rest.map fun x => (g x, x)) (g k) = none := by
        apply lookupLast_eq_none
        intro p hp
        obtain ⟨k', hk', rfl⟩ := List.mem_map.mp hp
        intro hEq
        exact hnd.1 (hEq ▸ List.mem_map_of_mem g hk')
      simp [lookupLast, hnone]
    · simp [lookupLast, ih hnd.2 k hk']

theorem gmLoop_spec (st : Store) (mk : List (String × RKey)) (g : RKey → String)
    (keys : List RKey) (acc : List (RKey × PyVal))
    (hsub : ∀ k ∈ keys, lookupLast mk (g k) = some k)
    (hnd : keys.Nodup)
    (hdisj : ∀ k ∈ keys, k ∉ acc.map Prod.fst)
    (hblob : ∀ k ∈ keys, optIsBlob (clientGet st (g k)) = true) :
    gmLoop mk (keys.map fun k => (g k, clientGet st (g k))) acc =
      Except.ok (acc ++ keys.filterMap (fun k => (clientGet st (g k)).bind
        (fun v => match unpickle v with
          | Except.ok w => some (k, gmCoerce w)
          | Except.error _ => none))) := by
  induction keys generalizing acc with
  | nil => simp [gmLoop]
  | cons k rest ih =>
    have hnd' := List.nodup_cons.mp hnd
    have hsub' : ∀ k' ∈ rest, lookupLast mk (g k') = some k' :=
      fun k' h => hsub k' (List.mem_cons_of_mem _ h)
    have hblob' : ∀ k' ∈ rest, optIsBlob (clientGet st (g k')) = true :=
      fun k' h => hblob k' (List.mem_cons_of_mem _ h)
    cases hv : clientGet st (g k) with
    | none =>
      simp only [List.map_cons, hv, gmLoop]
      rw [ih acc hsub' hnd'.2 (fun k' h => hdisj k' (List.mem_cons_of_mem _ h)) hblob']
      simp [hv]
    | some v =>
      have hb := hblob k (List.mem_cons_self k rest)
      rw [hv] at hb
      obtain ⟨w, rfl⟩ : ∃ w, v = RVal.blob w := by
        cases v with
        | rawInt m => simp [optIsBlob] at hb
        | blob w => exact ⟨w, rfl⟩
      simp only [List.map_cons, hv, gmLoop, unpickle,
        hsub k (List.mem_cons_self k rest)]
      rw [sdInsert_append acc k _ (hdisj k (List.mem_cons_self k rest))]
      rw [ih _ hsub' hnd'.2 ?_ hblob']
      · simp [hv, unpickle]
      · intro k' h
        have h1 : k' ∉ acc.map Prod.fst := hdisj k' (List.mem_cons_of_mem _ h)
        have h2 : k' ≠ k := fun hh => hnd'.1 (hh ▸ h)
        simp [h1, h2]

theorem map_zip_self (g : RKey → String) (keys : List RKey) :
    (keys.map g).zip keys = keys.map (fun k => (g k, k)) := by
  induction keys with
  | nil => rfl
  | cons k rest ih => simp [ih]

theorem map_zip_mget (st : Store) (g : RKey → String) (keys : List RKey) :
    (keys.map g).zip (clientMget st (keys.map g)) =
      keys.map (fun k => (g k, clientGet st (g k))) := by
  induction keys with
  | nil => rfl
  | cons k rest ih =>
    simp only [clientMget, List.map_map] at ih ⊢
    simp [ih, Function.comp]

/-- C7 counterexample, refuting the claim for two kinds of input: a single
present key holding a raw integer scalar makes `get_many` raise
UnpicklingError (the C1 decode slip) instead of returning a mapping at
all; and two input keys encoding to the same wire key contend for one
`map_keys` slot, so the entry of the present key raw a is returned only
under the later colliding input key, not under raw a itself. -/
theorem get_many_counterexample :
    (clientExists [("ns:1:a", RVal.rawInt 1, (none : Option Int))]
      (keyStr (make_key cfgW (RKey.raw "a") none)) = true ∧
    get_many cfgW [("ns:1:a", RVal.rawInt 1, (none : Option Int))] [RKey.raw "a"] none =
      Except.error CacheErr.unpicklingError) ∧
    (clientExists [("ns:1:a", RVal.blob (PyVal.str "x"), (none : Option Int))]
      (keyStr (make_key cfgW (RKey.raw "a") none)) = true ∧
    get_many cfgW [("ns:1:a", RVal.blob (PyVal.str "x"), (none : Option Int))]
      [RKey.raw "a", RKey.encoded "ns:1:a"] none =
      Except.ok [(RKey.encoded "ns:1:a", PyVal.str "x")]) := by
  exact ⟨⟨by decide, rfl⟩, ⟨by decide, rfl⟩⟩

/-- C7 (amended): for input key sequences whose encodings are pairwise
distinct and whose present values are pickled blobs (a raw integer scalar
among them aborts the call with UnpicklingError), `get_many` returns the
association list that pairs each raw input key with its decoded value in
the order of the input sequence, omitting absent keys entirely.  Both
restrictions are forced by a case of the exhibited counterexample. -/
theorem get_many_ordered (cfg : Config) (st : Store) (keys : List RKey)
    (ver : Option Int)
    (hnd : (keys.map fun k => keyStr (make_key cfg k ver)).Nodup)
    (hblob : ∀ k ∈ keys, optIsBlob (clientGet st (keyStr (make_key cfg k ver))) = true) :
    get_many cfg st keys ver = Except.ok (keys.filterMap (fun k =>
      (clientGet st (keyStr (make_key cfg k ver))).bind
        (fun v => match unpickle v with
          | Except.ok w => some (k, gmCoerce w)
          | Except.error _ => none))) := by
  cases keys with
  | nil => rfl
  | cons k rest =>
    have hnd0 : (k :: rest).Nodup := List.Nodup.of_map _ hnd
    have hg := gmLoop_spec st ((k :: rest).map fun x => (keyStr (make_key cfg x ver), x))
      (fun x => keyStr (make_key cfg x ver)) (k :: rest) []
      (lookupLast_self _ _ hnd) hnd0 (by simp) hblob
    simp only [get_many, map_zip_self, map_zip_mget]
    simpa using hg

/-- Witness for C7: fetching a, b, c when only a and c are stored (as
pickled strings) yields exactly a then c, in input order, with b
omitted. -/
theorem get_many_ordered_witness :
    ([RKey.raw "a", RKey.raw "b", RKey.raw "c"].map
      (fun k => keyStr (make_key cfgW k none))).Nodup ∧
    (∀ k ∈ [RKey.raw "a", RKey.raw "b", RKey.raw "c"],
      optIsBlob (clientGet
        [("ns:1:a", RVal.blob (PyVal.str "x"), (none : Option Int)),
         ("ns:1:c", RVal.blob (PyVal.str "z"), (none : Option Int))]
        (keyStr (make_key cfgW k none))) = true) ∧
    get_many cfgW
      [("ns:1:a", RVal.blob (PyVal.str "x"), (none : Option Int)),
       ("ns:1:c", RVal.blob (PyVal.str "z"), (none : Option Int))]
      [RKey.raw "a", RKey.raw "b", RKey.raw "c"] none =
    Except.ok ([RKey.raw "a", RKey.raw "b", RKey.raw "c"].filterMap (fun k =>
      (clientGet
        [("ns:1:a", RVal.blob (PyVal.str "x"), (none : Option Int)),
         ("ns:1:c", RVal.blob (PyVal.str "z"), (none : Option Int))]
        (keyStr (make_key cfgW k none))).bind
        (fun v => match unpickle v with
          | Except.ok w => some (k, gmCoerce w)
          | Except.error _ => none))) :=
  ⟨by decide, by decide,
    get_many_ordered cfgW
      [("ns:1:a", RVal.blob (PyVal.str "x"), none),
       ("ns:1:c", RVal.blob (PyVal.str "z"), none)]
      [RKey.raw "a", RKey.raw "b", RKey.raw "c"] none (by decide) (by decide)⟩

end Trest






